import Mathlib

/-!
Shallow embedding of the CDP collision-risk model (`cdp_crm.ipynb`):
`get_p_excess`, `p_mac`, `averaged_risk`, and the `lru_cache` memoization
of `get_p_excess`.  The Monte-Carlo draws and the scipy quadrature routine
are external effects: they enter as explicit parameters (`samples`,
`sampler`, `quad`), so that every function of the notebook becomes a pure
function of its inputs plus those oracles.
-/

/-- `scipy.stats.expon.cdf` with `loc = 0`: the exponential cumulative
distribution with the given scale, with a zero floor (the CDF is `0` for
negative arguments). -/
noncomputable def expon_cdf (scale x : ℝ) : ℝ :=
  if x < 0 then 0 else 1 - Real.exp (-x / scale)

/-- Default Monte-Carlo sample count `k` of `get_p_excess`. -/
def default_k : ℕ := 50000000

/-- `get_p_excess`: the deterministic part of the Monte-Carlo estimator.
The random draws (`v_follower.rvs(k) + speed_error_follower.rvs(k)`) enter
as the explicit list `samples`; the estimate is the fraction of the
samples strictly exceeding `max_speed_difference`.  The distribution
parameters `speed_diff_std` and `speed_error_scale` shape the random draw
and are part of the cache key, but the returned value depends on them only
through `samples`. -/
noncomputable def get_p_excess (samples : List ℝ)
    (speed_diff_std max_speed_difference speed_error_scale : ℝ) (k : ℕ) : ℝ :=
  ((samples.filter fun v => max_speed_difference < v).length : ℝ) / k

/-- `p_mac`: the Point Risk Model.  `kwargs` models the `**kwargs`
dictionary, which can carry at most an override of the sample count `k`
forwarded to `get_p_excess`. -/
noncomputable def p_mac (samples : List ℝ)
    (minute_climb initial_longitudinal_spacing lambda_xy_m lambda_z_ft
      max_speed_difference speed_error_scale climb_rate speed_diff_std : ℝ)
    (kwargs : Option ℕ) : ℝ :=
  let NM2M : ℝ := 1852
  let level_spacing_ft : ℝ := 1000
  let t_start_volap :=
    minute_climb + level_spacing_ft / climb_rate - lambda_z_ft / climb_rate
  let t_stop_volap :=
    minute_climb + level_spacing_ft / climb_rate + lambda_z_ft / climb_rate
  let v_col_min :=
    60 * (|initial_longitudinal_spacing| - 1 * lambda_xy_m / NM2M) / t_stop_volap
  let v_col_max :=
    60 * (|initial_longitudinal_spacing| + 1 * lambda_xy_m / NM2M) / t_start_volap
  let polap_given_excess :=
    expon_cdf speed_error_scale (v_col_max - max_speed_difference) -
      expon_cdf speed_error_scale (v_col_min - max_speed_difference)
  let excess_probability :=
    get_p_excess samples speed_diff_std max_speed_difference speed_error_scale
      (kwargs.getD default_k)
  polap_given_excess * excess_probability

/-- A scipy frozen distribution, reduced to the two methods `averaged_risk`
uses: density (`pdf`) and quantile (`ppf`). -/
structure SciDist where
  pdf : ℝ → ℝ
  ppf : ℝ → ℝ

/-- Default tail-truncation bound `ppf_bound` of `averaged_risk`. -/
noncomputable def default_ppf_bound : ℝ := 1e-12

/-- `averaged_risk`.  `quad` models `scipy.integrate.nquad`: it receives the
integrand and the two integration intervals and returns the pair (estimate,
reported error).  When the reported error exceeds `1e-6` the code raises
`ValueError`, modelled as `Except.error`; otherwise only the estimate `p`
is returned.  The received `kwargs` are modelled like in `p_mac`; note that
the code never forwards them anywhere. -/
noncomputable def averaged_risk
    (quad : (ℝ → ℝ → ℝ) → (ℝ × ℝ) → (ℝ × ℝ) → ℝ × ℝ)
    (samples : List ℝ)
    (minute_climb_dist initial_longitudinal_spacing_dist : SciDist)
    (lambda_xy_m lambda_z_ft max_speed_difference speed_error_scale
      climb_rate speed_diff_std : ℝ)
    (ppf_bound : ℝ) (kwargs : Option ℕ) : Except String ℝ :=
  let pe := quad
    (fun minute_climb initial_longitudinal_spacing =>
      p_mac samples minute_climb initial_longitudinal_spacing lambda_xy_m
          lambda_z_ft max_speed_difference speed_error_scale climb_rate
          speed_diff_std none *
        minute_climb_dist.pdf minute_climb *
        initial_longitudinal_spacing_dist.pdf initial_longitudinal_spacing)
    (minute_climb_dist.ppf ppf_bound, minute_climb_dist.ppf (1 - ppf_bound))
    (initial_longitudinal_spacing_dist.ppf ppf_bound,
      initial_longitudinal_spacing_dist.ppf (1 - ppf_bound))
  if 1e-6 < pe.2 then Except.error "Did not converge with good precision"
  else Except.ok pe.1

/-- An `lru_cache` key of `get_p_excess`. -/
structure PKey where
  speed_diff_std : ℝ
  max_speed_difference : ℝ
  speed_error_scale : ℝ
  k : ℕ

noncomputable instance : DecidableEq PKey := fun _ _ => Classical.dec _

/-- Process state of the memoized estimator: the cache contents and the
number of Monte-Carlo sampling events performed so far. -/
structure EstState where
  cache : List (PKey × ℝ)
  draws : ℕ

/-- Cache lookup (`lru_cache` with `maxsize=None` never evicts). -/
noncomputable def findCached (key : PKey) : List (PKey × ℝ) → Option ℝ
  | [] => none
  | e :: rest => if e.1 = key then some e.2 else findCached key rest

/-- One call of the memoized `get_p_excess`: on a cache hit the cached value
is returned and the state is untouched; on a miss a fresh Monte-Carlo draw
`sampler st.draws` is consumed and the resulting estimate is stored. -/
noncomputable def get_p_excess_call (sampler : ℕ → List ℝ) (st : EstState)
    (key : PKey) : ℝ × EstState :=
  match findCached key st.cache with
  | some v => (v, st)
  | none =>
      let v := get_p_excess (sampler st.draws) key.speed_diff_std
        key.max_speed_difference key.speed_error_scale key.k
      (v, ⟨(key, v) :: st.cache, st.draws + 1⟩)

/-- Run a sequence of memoized calls, returning the final state. -/
noncomputable def runCalls (sampler : ℕ → List ℝ) :
    EstState → List PKey → EstState
  | st, [] => st
  | st, key :: rest => runCalls sampler (get_p_excess_call sampler st key).2 rest

/-- Closed form of `p_mac` with the `let` bindings inlined. -/
lemma p_mac_unfold (samples : List ℝ)
    (minute_climb s lambda_xy_m lambda_z_ft max_speed_difference
      speed_error_scale climb_rate speed_diff_std : ℝ) (kwargs : Option ℕ) :
    p_mac samples minute_climb s lambda_xy_m lambda_z_ft max_speed_difference
        speed_error_scale climb_rate speed_diff_std kwargs =
      (expon_cdf speed_error_scale
          (60 * (|s| + lambda_xy_m / 1852) /
              (minute_climb + 1000 / climb_rate - lambda_z_ft / climb_rate) -
            max_speed_difference) -
        expon_cdf speed_error_scale
          (60 * (|s| - lambda_xy_m / 1852) /
              (minute_climb + 1000 / climb_rate + lambda_z_ft / climb_rate) -
            max_speed_difference)) *
      get_p_excess samples speed_diff_std max_speed_difference
        speed_error_scale (kwargs.getD default_k) := by
  simp only [p_mac, one_mul]

lemma expon_cdf_nonneg (scale x : ℝ) (hs : 0 < scale) :
    0 ≤ expon_cdf scale x := by
  by_cases hx : x < 0
  · simp [expon_cdf, hx]
  · simp only [expon_cdf, if_neg hx]
    have h1 : Real.exp (-x / scale) ≤ 1 := by
      rw [Real.exp_le_one_iff]
      exact div_nonpos_iff.mpr (Or.inr ⟨by linarith [not_lt.mp hx], hs.le⟩)
    linarith

lemma expon_cdf_le_one (scale x : ℝ) : expon_cdf scale x ≤ 1 := by
  by_cases hx : x < 0
  · simp [expon_cdf, hx]
  · simp only [expon_cdf, if_neg hx]
    have h1 := (Real.exp_pos (-x / scale)).le
    linarith

lemma expon_cdf_mono (scale a b : ℝ) (hs : 0 < scale) (hab : a ≤ b) :
    expon_cdf scale a ≤ expon_cdf scale b := by
  by_cases hb : b < 0
  · have ha : a < 0 := lt_of_le_of_lt hab hb
    simp [expon_cdf, ha, hb]
  · by_cases ha : a < 0
    · simp only [expon_cdf, if_pos ha, if_neg hb]
      have h1 : Real.exp (-b / scale) ≤ 1 := by
        rw [Real.exp_le_one_iff]
        exact div_nonpos_iff.mpr (Or.inr ⟨by linarith [not_lt.mp hb], hs.le⟩)
      linarith
    · simp only [expon_cdf, if_neg ha, if_neg hb]
      have h1 : Real.exp (-b / scale) ≤ Real.exp (-a / scale) := by
        rw [Real.exp_le_exp]
        exact (div_le_div_iff_of_pos_right hs).mpr (by linarith)
      linarith

lemma expon_cdf_mass_bounds (ses a b : ℝ) (hses : 0 < ses) (hab : a ≤ b) :
    0 ≤ expon_cdf ses b - expon_cdf ses a ∧
      expon_cdf ses b - expon_cdf ses a ≤ 1 :=
  ⟨sub_nonneg.mpr (expon_cdf_mono ses a b hses hab),
    by linarith [expon_cdf_le_one ses b, expon_cdf_nonneg ses a hses]⟩

lemma get_p_excess_nonneg (samples : List ℝ) (sdstd msd ses : ℝ) (k : ℕ) :
    0 ≤ get_p_excess samples sdstd msd ses k := by
  unfold get_p_excess
  positivity

lemma get_p_excess_le_one (samples : List ℝ) (sdstd msd ses : ℝ) (k : ℕ)
    (hlen : samples.length = k) :
    get_p_excess samples sdstd msd ses k ≤ 1 := by
  unfold get_p_excess
  rcases Nat.eq_zero_or_pos k with hk | hk
  · subst hk; simp
  · rw [div_le_one (by exact_mod_cast hk)]
    exact_mod_cast (List.length_filter_le _ samples).trans hlen.le

lemma v_col_le (s_abs a tstart tstop : ℝ) (hs : 0 ≤ s_abs) (ha : 0 ≤ a)
    (ht : 0 < tstart) (hts : tstart ≤ tstop) :
    60 * (s_abs - a) / tstop ≤ 60 * (s_abs + a) / tstart := by
  have htstop : 0 < tstop := lt_of_lt_of_le ht hts
  rw [div_le_div_iff₀ htstop ht]
  nlinarith [mul_nonneg hs (sub_nonneg.mpr hts), mul_nonneg ha ht.le,
    mul_nonneg ha htstop.le]

/-- Shared bounds engine: with positive climb rate, nonnegative aircraft
dimensions, positive error scale and a strictly positive vertical-overlap
start time, the closing-speed thresholds are ordered, the conditional
overlap factor lies in `[0,1]`, and whenever the excess factor lies in
`[0,1]` so does the product `p_mac`. -/
lemma p_mac_bounds_core (samples : List ℝ)
    (minute_climb s lambda_xy_m lambda_z_ft max_speed_difference
      speed_error_scale climb_rate speed_diff_std : ℝ) (kwargs : Option ℕ)
    (hcr : 0 < climb_rate) (hxy : 0 ≤ lambda_xy_m) (hz : 0 ≤ lambda_z_ft)
    (hses : 0 < speed_error_scale)
    (hts : 0 < minute_climb + 1000 / climb_rate - lambda_z_ft / climb_rate)
    (hex0 : 0 ≤ get_p_excess samples speed_diff_std max_speed_difference
        speed_error_scale (kwargs.getD default_k))
    (hex1 : get_p_excess samples speed_diff_std max_speed_difference
        speed_error_scale (kwargs.getD default_k) ≤ 1) :
    60 * (|s| - lambda_xy_m / 1852) /
        (minute_climb + 1000 / climb_rate + lambda_z_ft / climb_rate) ≤
      60 * (|s| + lambda_xy_m / 1852) /
        (minute_climb + 1000 / climb_rate - lambda_z_ft / climb_rate) ∧
    (0 ≤ expon_cdf speed_error_scale
          (60 * (|s| + lambda_xy_m / 1852) /
              (minute_climb + 1000 / climb_rate - lambda_z_ft / climb_rate) -
            max_speed_difference) -
        expon_cdf speed_error_scale
          (60 * (|s| - lambda_xy_m / 1852) /
              (minute_climb + 1000 / climb_rate + lambda_z_ft / climb_rate) -
            max_speed_difference) ∧
      expon_cdf speed_error_scale
          (60 * (|s| + lambda_xy_m / 1852) /
              (minute_climb + 1000 / climb_rate - lambda_z_ft / climb_rate) -
            max_speed_difference) -
        expon_cdf speed_error_scale
          (60 * (|s| - lambda_xy_m / 1852) /
              (minute_climb + 1000 / climb_rate + lambda_z_ft / climb_rate) -
            max_speed_difference) ≤ 1) ∧
    (0 ≤ p_mac samples minute_climb s lambda_xy_m lambda_z_ft
        max_speed_difference speed_error_scale climb_rate speed_diff_std
        kwargs ∧
      p_mac samples minute_climb s lambda_xy_m lambda_z_ft
        max_speed_difference speed_error_scale climb_rate speed_diff_std
        kwargs ≤ 1) := by
  have hstop : minute_climb + 1000 / climb_rate - lambda_z_ft / climb_rate ≤
      minute_climb + 1000 / climb_rate + lambda_z_ft / climb_rate := by
    have := div_nonneg hz hcr.le
    linarith
  have hv := v_col_le (|s|) (lambda_xy_m / 1852) _ _ (abs_nonneg s)
    (by positivity) hts hstop
  have hmass := expon_cdf_mass_bounds speed_error_scale _ _ hses
    (sub_le_sub_right hv max_speed_difference)
  refine ⟨hv, hmass, ?_, ?_⟩
  · rw [p_mac_unfold]
    exact mul_nonneg hmass.1 hex0
  · rw [p_mac_unfold]
    nlinarith [hmass.1, hmass.2, hex0, hex1]

/-- C1: for every scenario with positive climb rate, `p_mac` returns exactly
the product of the exponential-CDF mass between the shifted closing-speed
thresholds and the excess-speed probability, where
`t_start = minute_climb + (1000 - lambda_z_ft)/climb_rate`,
`t_stop = minute_climb + (1000 + lambda_z_ft)/climb_rate`,
`v_col_min = 60 (|s| - lambda_xy_m/1852) / t_stop` and
`v_col_max = 60 (|s| + lambda_xy_m/1852) / t_start`. -/
theorem p_mac_eq_product (samples : List ℝ)
    (minute_climb s lambda_xy_m lambda_z_ft max_speed_difference
      speed_error_scale climb_rate speed_diff_std : ℝ) (kwargs : Option ℕ)
    (hcr : 0 < climb_rate) :
    p_mac samples minute_climb s lambda_xy_m lambda_z_ft max_speed_difference
        speed_error_scale climb_rate speed_diff_std kwargs =
      (expon_cdf speed_error_scale
          (60 * (|s| + lambda_xy_m / 1852) /
              (minute_climb + (1000 - lambda_z_ft) / climb_rate) -
            max_speed_difference) -
        expon_cdf speed_error_scale
          (60 * (|s| - lambda_xy_m / 1852) /
              (minute_climb + (1000 + lambda_z_ft) / climb_rate) -
            max_speed_difference)) *
      get_p_excess samples speed_diff_std max_speed_difference
        speed_error_scale (kwargs.getD default_k) := by
  have h1 : minute_climb + 1000 / climb_rate - lambda_z_ft / climb_rate =
      minute_climb + (1000 - lambda_z_ft) / climb_rate := by ring
  have h2 : minute_climb + 1000 / climb_rate + lambda_z_ft / climb_rate =
      minute_climb + (1000 + lambda_z_ft) / climb_rate := by ring
  simp only [p_mac, h1, h2, one_mul]

theorem p_mac_eq_product_witness :
    p_mac [] 10 15 70 56 0 (9/2) 1000 15 none =
      (expon_cdf (9/2)
          (60 * (|(15:ℝ)| + 70 / 1852) / (10 + (1000 - 56) / 1000) - 0) -
        expon_cdf (9/2)
          (60 * (|(15:ℝ)| - 70 / 1852) / (10 + (1000 + 56) / 1000) - 0)) *
      get_p_excess [] 15 0 (9/2) (Option.getD none default_k) :=
  p_mac_eq_product [] 10 15 70 56 0 (9/2) 1000 15 none (by norm_num)

/-- C7: the initial longitudinal spacing enters `p_mac` only through its
absolute value, so negating it leaves the result unchanged. -/
theorem p_mac_neg_spacing (samples : List ℝ)
    (minute_climb s lambda_xy_m lambda_z_ft max_speed_difference
      speed_error_scale climb_rate speed_diff_std : ℝ) (kwargs : Option ℕ) :
    p_mac samples minute_climb (-s) lambda_xy_m lambda_z_ft
        max_speed_difference speed_error_scale climb_rate speed_diff_std
        kwargs =
      p_mac samples minute_climb s lambda_xy_m lambda_z_ft
        max_speed_difference speed_error_scale climb_rate speed_diff_std
        kwargs := by
  simp only [p_mac, abs_neg]

/-- C2 (amended): for every Scenario satisfying the stated invariants AND
whose computed `t_start = minute_climb + (1000 - lambda_z_ft)/climb_rate`
is strictly positive, `p_mac` (evaluated on a Monte-Carlo draw of the keyed
sample count) returns a value in `[0, 1]`.  Without the positivity of
`t_start` the claim fails: see `p_mac_negative_on_valid_scenario`. -/
theorem p_mac_in_unit_interval (samples : List ℝ)
    (minute_climb s lambda_xy_m lambda_z_ft max_speed_difference
      speed_error_scale climb_rate speed_diff_std : ℝ) (kwargs : Option ℕ)
    (hcr : 0 < climb_rate) (hxy : 0 ≤ lambda_xy_m) (hz : 0 ≤ lambda_z_ft)
    (hses : 0 < speed_error_scale) (hstd : 0 < speed_diff_std)
    (hts : 0 < minute_climb + (1000 - lambda_z_ft) / climb_rate)
    (hlen : samples.length = kwargs.getD default_k) :
    0 ≤ p_mac samples minute_climb s lambda_xy_m lambda_z_ft
        max_speed_difference speed_error_scale climb_rate speed_diff_std
        kwargs ∧
      p_mac samples minute_climb s lambda_xy_m lambda_z_ft
        max_speed_difference speed_error_scale climb_rate speed_diff_std
        kwargs ≤ 1 := by
  rw [show minute_climb + (1000 - lambda_z_ft) / climb_rate =
      minute_climb + 1000 / climb_rate - lambda_z_ft / climb_rate
    from by ring] at hts
  exact (p_mac_bounds_core samples minute_climb s lambda_xy_m lambda_z_ft
    max_speed_difference speed_error_scale climb_rate speed_diff_std kwargs
    hcr hxy hz hses hts
    (get_p_excess_nonneg samples speed_diff_std max_speed_difference
      speed_error_scale (kwargs.getD default_k))
    (get_p_excess_le_one samples speed_diff_std max_speed_difference
      speed_error_scale (kwargs.getD default_k) hlen)).2.2

theorem p_mac_in_unit_interval_witness :
    0 ≤ p_mac [] 10 15 70 56 0 (9/2) 1000 15 (some 0) ∧
      p_mac [] 10 15 70 56 0 (9/2) 1000 15 (some 0) ≤ 1 :=
  p_mac_in_unit_interval [] 10 15 70 56 0 (9/2) 1000 15 (some 0)
    (by norm_num) (by norm_num) (by norm_num) (by norm_num) (by norm_num)
    (by norm_num) rfl

/-- C2 counterexample: the scenario `minute_climb = -1`,
`initial_longitudinal_spacing = 1`, `lambda_xy_m = 0`, `lambda_z_ft = 500`,
`max_speed_difference = 0`, `speed_error_scale = 1`, `climb_rate = 1000`,
`speed_diff_std = 1` satisfies every stated invariant (the invariants do
not constrain `minute_climb`), yet with the one-sample draw `[1]` and
`k = 1` the vertical-overlap window straddles the clock zero
(`t_start = -1/2 < 0 < 1/2 = t_stop`) and `p_mac` returns the negative
number `exp(-120) - 1`, outside `[0, 1]`. -/
theorem p_mac_negative_on_valid_scenario :
    p_mac [1] (-1) 1 0 500 0 1 1000 1 (some 1) < 0 := by
  rw [p_mac_unfold]
  have h1 : get_p_excess [1] 1 0 1 ((some 1).getD default_k) = 1 := by
    norm_num [get_p_excess, List.filter]
  rw [h1, mul_one]
  have ha : 60 * (|(1:ℝ)| + 0 / 1852) /
      (-1 + 1000 / 1000 - 500 / 1000) - 0 = -120 := by
    rw [abs_one]; norm_num
  have hb : 60 * (|(1:ℝ)| - 0 / 1852) /
      (-1 + 1000 / 1000 + 500 / 1000) - 0 = 120 := by
    rw [abs_one]; norm_num
  rw [ha, hb]
  have hc : expon_cdf 1 (-120) = 0 := by norm_num [expon_cdf]
  have hd : expon_cdf 1 120 = 1 - Real.exp (-120) := by norm_num [expon_cdf]
  rw [hc, hd]
  have he : Real.exp (-120) < 1 := Real.exp_lt_one_iff.mpr (by norm_num)
  linarith

/-- C10: under the Scenario invariants and a strictly positive
`t_start = minute_climb + (1000 - lambda_z_ft)/climb_rate`, the
closing-speed thresholds satisfy `v_col_min ≤ v_col_max`, the conditional
overlap factor `ExpCDF(v_col_max - msd) - ExpCDF(v_col_min - msd)` lies in
`[0,1]`, and — given the excess-probability factor lies in `[0,1]` — the
value of `p_mac` lies in `[0,1]`. -/
theorem p_mac_bounds_of_pos_t_start (samples : List ℝ)
    (minute_climb s lambda_xy_m lambda_z_ft max_speed_difference
      speed_error_scale climb_rate speed_diff_std : ℝ) (kwargs : Option ℕ)
    (hcr : 0 < climb_rate) (hxy : 0 ≤ lambda_xy_m) (hz : 0 ≤ lambda_z_ft)
    (hses : 0 < speed_error_scale)
    (hts : 0 < minute_climb + (1000 - lambda_z_ft) / climb_rate)
    (hex : 0 ≤ get_p_excess samples speed_diff_std max_speed_difference
          speed_error_scale (kwargs.getD default_k) ∧
        get_p_excess samples speed_diff_std max_speed_difference
          speed_error_scale (kwargs.getD default_k) ≤ 1) :
    60 * (|s| - lambda_xy_m / 1852) /
        (minute_climb + (1000 + lambda_z_ft) / climb_rate) ≤
      60 * (|s| + lambda_xy_m / 1852) /
        (minute_climb + (1000 - lambda_z_ft) / climb_rate) ∧
    (0 ≤ expon_cdf speed_error_scale
          (60 * (|s| + lambda_xy_m / 1852) /
              (minute_climb + (1000 - lambda_z_ft) / climb_rate) -
            max_speed_difference) -
        expon_cdf speed_error_scale
          (60 * (|s| - lambda_xy_m / 1852) /
              (minute_climb + (1000 + lambda_z_ft) / climb_rate) -
            max_speed_difference) ∧
      expon_cdf speed_error_scale
          (60 * (|s| + lambda_xy_m / 1852) /
              (minute_climb + (1000 - lambda_z_ft) / climb_rate) -
            max_speed_difference) -
        expon_cdf speed_error_scale
          (60 * (|s| - lambda_xy_m / 1852) /
              (minute_climb + (1000 + lambda_z_ft) / climb_rate) -
            max_speed_difference) ≤ 1) ∧
    (0 ≤ p_mac samples minute_climb s lambda_xy_m lambda_z_ft
        max_speed_difference speed_error_scale climb_rate speed_diff_std
        kwargs ∧
      p_mac samples minute_climb s lambda_xy_m lambda_z_ft
        max_speed_difference speed_error_scale climb_rate speed_diff_std
        kwargs ≤ 1) := by
  rw [show minute_climb + (1000 - lambda_z_ft) / climb_rate =
      minute_climb + 1000 / climb_rate - lambda_z_ft / climb_rate
    from by ring,
    show minute_climb + (1000 + lambda_z_ft) / climb_rate =
      minute_climb + 1000 / climb_rate + lambda_z_ft / climb_rate
    from by ring] at *
  exact p_mac_bounds_core samples minute_climb s lambda_xy_m lambda_z_ft
    max_speed_difference speed_error_scale climb_rate speed_diff_std kwargs
    hcr hxy hz hses hts hex.1 hex.2

theorem p_mac_bounds_of_pos_t_start_witness :
    60 * (|(15:ℝ)| - 70 / 1852) / (10 + (1000 + 56) / 1000) ≤
      60 * (|(15:ℝ)| + 70 / 1852) / (10 + (1000 - 56) / 1000) ∧
    (0 ≤ expon_cdf (9/2)
          (60 * (|(15:ℝ)| + 70 / 1852) / (10 + (1000 - 56) / 1000) - 0) -
        expon_cdf (9/2)
          (60 * (|(15:ℝ)| - 70 / 1852) / (10 + (1000 + 56) / 1000) - 0) ∧
      expon_cdf (9/2)
          (60 * (|(15:ℝ)| + 70 / 1852) / (10 + (1000 - 56) / 1000) - 0) -
        expon_cdf (9/2)
          (60 * (|(15:ℝ)| - 70 / 1852) / (10 + (1000 + 56) / 1000) - 0) ≤ 1) ∧
    (0 ≤ p_mac [] 10 15 70 56 0 (9/2) 1000 15 (some 1) ∧
      p_mac [] 10 15 70 56 0 (9/2) 1000 15 (some 1) ≤ 1) :=
  p_mac_bounds_of_pos_t_start [] 10 15 70 56 0 (9/2) 1000 15 (some 1)
    (by norm_num) (by norm_num) (by norm_num) (by norm_num) (by norm_num)
    (by constructor <;> norm_num [get_p_excess])

/-- C3: `averaged_risk` raises its convergence `ValueError` exactly when
the quadrature's reported numerical error estimate exceeds the fixed
tolerance `1e-6`, and when it raises, no probability value is returned to
the caller (the outcome is never simultaneously an `Except.ok`). -/
theorem averaged_risk_raises_iff
    (quad : (ℝ → ℝ → ℝ) → (ℝ × ℝ) → (ℝ × ℝ) → ℝ × ℝ) (samples : List ℝ)
    (d1 d2 : SciDist)
    (lambda_xy_m lambda_z_ft max_speed_difference speed_error_scale
      climb_rate speed_diff_std : ℝ) (ppf_bound : ℝ) (kwargs : Option ℕ) :
    ((∃ msg, averaged_risk quad samples d1 d2 lambda_xy_m lambda_z_ft
        max_speed_difference speed_error_scale climb_rate speed_diff_std
        ppf_bound kwargs = Except.error msg) ↔
      1e-6 < (quad
        (fun minute_climb initial_longitudinal_spacing =>
          p_mac samples minute_climb initial_longitudinal_spacing lambda_xy_m
              lambda_z_ft max_speed_difference speed_error_scale climb_rate
              speed_diff_std none *
            d1.pdf minute_climb *
            d2.pdf initial_longitudinal_spacing)
        (d1.ppf ppf_bound, d1.ppf (1 - ppf_bound))
        (d2.ppf ppf_bound, d2.ppf (1 - ppf_bound))).2) ∧
    ∀ msg, averaged_risk quad samples d1 d2 lambda_xy_m lambda_z_ft
        max_speed_difference speed_error_scale climb_rate speed_diff_std
        ppf_bound kwargs = Except.error msg →
      ∀ p, averaged_risk quad samples d1 d2 lambda_xy_m lambda_z_ft
        max_speed_difference speed_error_scale climb_rate speed_diff_std
        ppf_bound kwargs ≠ Except.ok p := by
  constructor
  · simp only [averaged_risk]
    split <;> rename_i h
    · simpa using h
    · simpa using h
  · intro msg hmsg p hp
    rw [hmsg] at hp
    exact Except.noConfusion hp

/-- C4 counterexample: two quadrature oracles that report the same estimate
`1/2` but different within-tolerance error estimates (`0` and `1e-7`) make
`averaged_risk` return the identical value `Except.ok (1/2)`: the reported
numerical error is checked against the tolerance and then discarded, so
the caller receives the probability alone, not the (probability, error)
pair the claim describes. -/
theorem averaged_risk_drops_error_estimate :
    averaged_risk (fun _ _ _ => ((1:ℝ)/2, 0)) []
        ⟨fun _ => 1, fun _ => 0⟩ ⟨fun _ => 1, fun _ => 0⟩
        70 56 0 (9/2) 1000 15 (1e-12) none = Except.ok (1/2) ∧
      averaged_risk (fun _ _ _ => ((1:ℝ)/2, 1e-7)) []
        ⟨fun _ => 1, fun _ => 0⟩ ⟨fun _ => 1, fun _ => 0⟩
        70 56 0 (9/2) 1000 15 (1e-12) none = Except.ok (1/2) := by
  constructor <;> norm_num [averaged_risk]

/-- C4 (amended): on success `averaged_risk` returns the estimated
probability alone — exactly the first component of the Quadrature Result
pair; the error estimate is only consumed by the internal tolerance check
and is not part of the value returned to the caller. -/
theorem averaged_risk_ok_eq_estimate
    (quad : (ℝ → ℝ → ℝ) → (ℝ × ℝ) → (ℝ × ℝ) → ℝ × ℝ) (samples : List ℝ)
    (d1 d2 : SciDist)
    (lambda_xy_m lambda_z_ft max_speed_difference speed_error_scale
      climb_rate speed_diff_std : ℝ) (ppf_bound : ℝ) (kwargs : Option ℕ)
    (h : (quad
        (fun minute_climb initial_longitudinal_spacing =>
          p_mac samples minute_climb initial_longitudinal_spacing lambda_xy_m
              lambda_z_ft max_speed_difference speed_error_scale climb_rate
              speed_diff_std none *
            d1.pdf minute_climb *
            d2.pdf initial_longitudinal_spacing)
        (d1.ppf ppf_bound, d1.ppf (1 - ppf_bound))
        (d2.ppf ppf_bound, d2.ppf (1 - ppf_bound))).2 ≤ 1e-6) :
    averaged_risk quad samples d1 d2 lambda_xy_m lambda_z_ft
        max_speed_difference speed_error_scale climb_rate speed_diff_std
        ppf_bound kwargs =
      Except.ok (quad
        (fun minute_climb initial_longitudinal_spacing =>
          p_mac samples minute_climb initial_longitudinal_spacing lambda_xy_m
              lambda_z_ft max_speed_difference speed_error_scale climb_rate
              speed_diff_std none *
            d1.pdf minute_climb *
            d2.pdf initial_longitudinal_spacing)
        (d1.ppf ppf_bound, d1.ppf (1 - ppf_bound))
        (d2.ppf ppf_bound, d2.ppf (1 - ppf_bound))).1 := by
  simp only [averaged_risk]
  rw [if_neg (not_lt.mpr h)]

theorem averaged_risk_ok_eq_estimate_witness :
    averaged_risk (fun _ _ _ => ((1:ℝ)/2, 0)) []
        ⟨fun _ => 1, fun _ => 0⟩ ⟨fun _ => 1, fun _ => 0⟩
        70 56 0 (9/2) 1000 15 (1e-12) (some 5) =
      Except.ok (((1:ℝ)/2, (0:ℝ)).1) :=
  averaged_risk_ok_eq_estimate (fun _ _ _ => ((1:ℝ)/2, 0)) []
    ⟨fun _ => 1, fun _ => 0⟩ ⟨fun _ => 1, fun _ => 0⟩
    70 56 0 (9/2) 1000 15 (1e-12) (some 5) (by norm_num)

/-- C5: whenever `averaged_risk` succeeds, the probability it returns is
the quadrature routine's estimate for exactly the integrand
`PointRisk(minute_climb, spacing, fixed fields) * pdf_climb(minute_climb) *
pdf_spacing(spacing)` over the rectangle `[ppf(b), ppf(1-b)]` for each of
the two varying parameters, and the default tail-truncation bound
`ppf_bound` is `1e-12`. -/
theorem averaged_risk_integrates_weighted_point_risk
    (quad : (ℝ → ℝ → ℝ) → (ℝ × ℝ) → (ℝ × ℝ) → ℝ × ℝ) (samples : List ℝ)
    (d1 d2 : SciDist)
    (lambda_xy_m lambda_z_ft max_speed_difference speed_error_scale
      climb_rate speed_diff_std : ℝ) (ppf_bound : ℝ) (kwargs : Option ℕ)
    (p : ℝ)
    (h : averaged_risk quad samples d1 d2 lambda_xy_m lambda_z_ft
        max_speed_difference speed_error_scale climb_rate speed_diff_std
        ppf_bound kwargs = Except.ok p) :
    p = (quad
        (fun minute_climb initial_longitudinal_spacing =>
          p_mac samples minute_climb initial_longitudinal_spacing lambda_xy_m
              lambda_z_ft max_speed_difference speed_error_scale climb_rate
              speed_diff_std none *
            d1.pdf minute_climb *
            d2.pdf initial_longitudinal_spacing)
        (d1.ppf ppf_bound, d1.ppf (1 - ppf_bound))
        (d2.ppf ppf_bound, d2.ppf (1 - ppf_bound))).1 ∧
      default_ppf_bound = 1e-12 := by
  refine ⟨?_, rfl⟩
  simp only [averaged_risk] at h
  split at h
  · exact Except.noConfusion h
  · exact (Except.ok.inj h).symm

theorem averaged_risk_integrates_weighted_point_risk_witness :
    (1:ℝ)/2 = ((fun (_ : ℝ → ℝ → ℝ) (_ : ℝ × ℝ) (_ : ℝ × ℝ) =>
        ((1:ℝ)/2, (0:ℝ)))
        (fun minute_climb initial_longitudinal_spacing =>
          p_mac [] minute_climb initial_longitudinal_spacing 70 56 0 (9/2)
              1000 15 none *
            SciDist.pdf ⟨fun _ => 1, fun _ => 0⟩ minute_climb *
            SciDist.pdf ⟨fun _ => 1, fun _ => 0⟩
              initial_longitudinal_spacing)
        (SciDist.ppf ⟨fun _ => 1, fun _ => 0⟩ (1e-12),
          SciDist.ppf ⟨fun _ => 1, fun _ => 0⟩ (1 - 1e-12))
        (SciDist.ppf ⟨fun _ => 1, fun _ => 0⟩ (1e-12),
          SciDist.ppf ⟨fun _ => 1, fun _ => 0⟩ (1 - 1e-12))).1 ∧
      default_ppf_bound = 1e-12 :=
  averaged_risk_integrates_weighted_point_risk
    (fun _ _ _ => ((1:ℝ)/2, 0)) [] ⟨fun _ => 1, fun _ => 0⟩
    ⟨fun _ => 1, fun _ => 0⟩ 70 56 0 (9/2) 1000 15 (1e-12) none (1/2)
    (by norm_num [averaged_risk])

/-- C9: `averaged_risk` accepts extra keyword arguments but never forwards
them to `p_mac`, `get_p_excess`, or the quadrature routine: its result is
the same for any two `kwargs` values, so in particular passing a
Monte-Carlo sample count `k` through `averaged_risk` has no effect on the
computed probability. -/
theorem averaged_risk_independent_of_kwargs
    (quad : (ℝ → ℝ → ℝ) → (ℝ × ℝ) → (ℝ × ℝ) → ℝ × ℝ) (samples : List ℝ)
    (d1 d2 : SciDist)
    (lambda_xy_m lambda_z_ft max_speed_difference speed_error_scale
      climb_rate speed_diff_std : ℝ) (ppf_bound : ℝ)
    (kw1 kw2 : Option ℕ) :
    averaged_risk quad samples d1 d2 lambda_xy_m lambda_z_ft
        max_speed_difference speed_error_scale climb_rate speed_diff_std
        ppf_bound kw1 =
      averaged_risk quad samples d1 d2 lambda_xy_m lambda_z_ft
        max_speed_difference speed_error_scale climb_rate speed_diff_std
        ppf_bound kw2 := rfl

lemma findCached_after_call (sampler : ℕ → List ℝ) (st : EstState)
    (key k' : PKey) (v : ℝ) (h : findCached key st.cache = some v) :
    findCached key (get_p_excess_call sampler st k').2.cache = some v := by
  unfold get_p_excess_call
  cases hc : findCached k' st.cache with
  | some w => simpa using h
  | none =>
      have hne : k' ≠ key := by
        intro he
        rw [he, h] at hc
        exact Option.noConfusion hc
      simpa [findCached, hne] using h

lemma findCached_after_runCalls (sampler : ℕ → List ℝ) (key : PKey) (v : ℝ)
    (ks : List PKey) :
    ∀ st : EstState, findCached key st.cache = some v →
      findCached key (runCalls sampler st ks).cache = some v := by
  induction ks with
  | nil => intro st h; simpa [runCalls] using h
  | cons k' rest ih =>
      intro st h
      simp only [runCalls]
      exact ih _ (findCached_after_call sampler st key k' v h)

lemma get_p_excess_call_hit (sampler : ℕ → List ℝ) (st : EstState)
    (key : PKey) (v : ℝ) (h : findCached key st.cache = some v) :
    get_p_excess_call sampler st key = (v, st) := by
  unfold get_p_excess_call
  rw [h]

lemma findCached_call_self (sampler : ℕ → List ℝ) (st : EstState)
    (key : PKey) :
    findCached key (get_p_excess_call sampler st key).2.cache =
      some (get_p_excess_call sampler st key).1 := by
  unfold get_p_excess_call
  cases hc : findCached key st.cache with
  | some w => simpa using hc
  | none => simp [findCached]

/-- C6: within one process lifetime, two calls to the memoized
`get_p_excess` with the same key `(speed_diff_std, max_speed_difference,
speed_error_scale, k)` return identical results: after the first call, any
later call with the same key — no matter which other calls happen in
between — returns exactly the first call's value and leaves the process
state untouched (in particular the Monte-Carlo draw counter does not
advance, i.e. no resampling happens). -/
theorem get_p_excess_cached_deterministic (sampler : ℕ → List ℝ)
    (st : EstState) (key : PKey) (ks : List PKey) :
    get_p_excess_call sampler
        (runCalls sampler (get_p_excess_call sampler st key).2 ks) key =
      ((get_p_excess_call sampler st key).1,
        runCalls sampler (get_p_excess_call sampler st key).2 ks) :=
  get_p_excess_call_hit sampler _ key _
    (findCached_after_runCalls sampler key _ ks _
      (findCached_call_self sampler st key))

lemma expon_cdf_of_nonneg (scale x : ℝ) (hx : 0 ≤ x) :
    expon_cdf scale x = 1 - Real.exp (-x / scale) := by
  unfold expon_cdf
  exact if_neg (not_lt.mpr hx)

/-- Shifting a nonnegative window of the exponential CDF to the right can
only shrink its probability mass. -/
lemma expon_cdf_mass_shift (scale x y d : ℝ) (hs : 0 < scale) (hx : 0 ≤ x)
    (hxy : x ≤ y) (hd : 0 ≤ d) :
    expon_cdf scale (y + d) - expon_cdf scale (x + d) ≤
      expon_cdf scale y - expon_cdf scale x := by
  have hy : 0 ≤ y := hx.trans hxy
  rw [expon_cdf_of_nonneg scale (y + d) (by linarith),
    expon_cdf_of_nonneg scale (x + d) (by linarith),
    expon_cdf_of_nonneg scale y hy, expon_cdf_of_nonneg scale x hx]
  have e1 : Real.exp (-(x + d) / scale) =
      Real.exp (-x / scale) * Real.exp (-d / scale) := by
    rw [← Real.exp_add]; congr 1; ring
  have e2 : Real.exp (-(y + d) / scale) =
      Real.exp (-y / scale) * Real.exp (-d / scale) := by
    rw [← Real.exp_add]; congr 1; ring
  have h3 : Real.exp (-d / scale) ≤ 1 :=
    Real.exp_le_one_iff.mpr (div_nonpos_iff.mpr (Or.inr ⟨by linarith, hs.le⟩))
  have h4 : Real.exp (-y / scale) ≤ Real.exp (-x / scale) :=
    Real.exp_le_exp.mpr ((div_le_div_iff_of_pos_right hs).mpr (by linarith))
  rw [e1, e2]
  nlinarith [mul_nonneg (sub_nonneg.mpr h4) (sub_nonneg.mpr h3)]

/-- C8 counterexample: all parameters fixed, exactly symmetric overlap
geometry (`lambda_z_ft = 0`, so `t_start = t_stop = 1`), spacings
`s1 = 0 ≤ 2 = s2`, yet `p_mac` strictly increases from `0` to
`1 - exp(-60)`: with `max_speed_difference = 120` knots the closing-speed
window at the smaller spacing lies entirely below the excess threshold, so
a larger initial spacing yields a larger collision probability. -/
theorem p_mac_not_antitone_in_spacing :
    p_mac [121] 0 0 1852 0 120 1 1000 1 (some 1) <
      p_mac [121] 0 2 1852 0 120 1 1000 1 (some 1) := by
  rw [p_mac_unfold, p_mac_unfold]
  have h1 : get_p_excess [121] 1 120 1 ((some 1).getD default_k) = 1 := by
    norm_num [get_p_excess, List.filter]
  rw [h1, mul_one, mul_one]
  have e1 : 60 * (|(0:ℝ)| + 1852 / 1852) / (0 + 1000 / 1000 - 0 / 1000) -
      120 = -60 := by
    rw [abs_zero]; norm_num
  have e2 : 60 * (|(0:ℝ)| - 1852 / 1852) / (0 + 1000 / 1000 + 0 / 1000) -
      120 = -180 := by
    rw [abs_zero]; norm_num
  have e3 : 60 * (|(2:ℝ)| + 1852 / 1852) / (0 + 1000 / 1000 - 0 / 1000) -
      120 = 60 := by
    rw [show |(2:ℝ)| = 2 from abs_of_pos (by norm_num)]; norm_num
  have e4 : 60 * (|(2:ℝ)| - 1852 / 1852) / (0 + 1000 / 1000 + 0 / 1000) -
      120 = -60 := by
    rw [show |(2:ℝ)| = 2 from abs_of_pos (by norm_num)]; norm_num
  rw [e1, e2, e3, e4]
  have hc0 : expon_cdf 1 (-60) = 0 := by norm_num [expon_cdf]
  have hc1 : expon_cdf 1 (-180) = 0 := by norm_num [expon_cdf]
  have hc2 : expon_cdf 1 60 = 1 - Real.exp (-60 / 1) := by
    rw [expon_cdf_of_nonneg 1 60 (by norm_num)]
  rw [hc0, hc1, hc2]
  have he : Real.exp (-60 / 1) < 1 := Real.exp_lt_one_iff.mpr (by norm_num)
  linarith

/-- C8 (amended): with all other parameters fixed, exactly symmetric
overlap geometry (`lambda_z_ft = 0`), a positive overlap-start time, and
the closing-speed window at the smaller spacing at or above the allowed
speed difference (`max_speed_difference ≤ v_col_min(s1)`), `p_mac` is
monotonically non-increasing in the initial longitudinal spacing: for
`0 ≤ s1 ≤ s2`, `p_mac` at `s2` is at most `p_mac` at `s1`. -/
theorem p_mac_antitone_in_spacing (samples : List ℝ)
    (minute_climb s1 s2 lambda_xy_m max_speed_difference speed_error_scale
      climb_rate speed_diff_std : ℝ) (kwargs : Option ℕ)
    (hcr : 0 < climb_rate) (hxy : 0 ≤ lambda_xy_m)
    (hses : 0 < speed_error_scale)
    (ht : 0 < minute_climb + 1000 / climb_rate)
    (hs1 : 0 ≤ s1) (h12 : s1 ≤ s2)
    (hwin : max_speed_difference ≤
      60 * (s1 - lambda_xy_m / 1852) / (minute_climb + 1000 / climb_rate)) :
    p_mac samples minute_climb s2 lambda_xy_m 0 max_speed_difference
        speed_error_scale climb_rate speed_diff_std kwargs ≤
      p_mac samples minute_climb s1 lambda_xy_m 0 max_speed_difference
        speed_error_scale climb_rate speed_diff_std kwargs := by
  rw [p_mac_unfold, p_mac_unfold]
  simp only [zero_div, sub_zero, add_zero]
  rw [abs_of_nonneg hs1, abs_of_nonneg (hs1.trans h12)]
  have ex : 60 * (s2 - lambda_xy_m / 1852) /
        (minute_climb + 1000 / climb_rate) - max_speed_difference =
      (60 * (s1 - lambda_xy_m / 1852) /
          (minute_climb + 1000 / climb_rate) - max_speed_difference) +
        60 * (s2 - s1) / (minute_climb + 1000 / climb_rate) := by
    ring
  have ey : 60 * (s2 + lambda_xy_m / 1852) /
        (minute_climb + 1000 / climb_rate) - max_speed_difference =
      (60 * (s1 + lambda_xy_m / 1852) /
          (minute_climb + 1000 / climb_rate) - max_speed_difference) +
        60 * (s2 - s1) / (minute_climb + 1000 / climb_rate) := by
    ring
  rw [ex, ey]
  refine mul_le_mul_of_nonneg_right
    (expon_cdf_mass_shift speed_error_scale _ _ _ hses
      (sub_nonneg.mpr hwin) ?_ (div_nonneg (by linarith) ht.le))
    (get_p_excess_nonneg samples speed_diff_std max_speed_difference
      speed_error_scale (kwargs.getD default_k))
  have := (div_le_div_iff_of_pos_right ht).mpr
    (show 60 * (s1 - lambda_xy_m / 1852) ≤ 60 * (s1 + lambda_xy_m / 1852)
      by linarith)
  linarith

theorem p_mac_antitone_in_spacing_witness :
    p_mac [] 10 2 0 0 0 1 1000 1 none ≤ p_mac [] 10 1 0 0 0 1 1000 1 none :=
  p_mac_antitone_in_spacing [] 10 1 2 0 0 1 1000 1 none (by norm_num)
    (by norm_num) (by norm_num) (by norm_num) (by norm_num) (by norm_num)
    (by norm_num)
